import Mathlib

/-!
# NovaOMS — verification of the queue-management core

Shallow embedding of the NovaOMS ticket/counter engine (React + Supabase).
The authoritative shared state is the relational store (tables `tickets`,
`counters`, see `db_schema.sql`); the React state is a read replica kept in
sync via realtime events.  Each App-level handler (`handleJoinQueue`,
`handleCallNext`, `handleUpdateTicketStatus`, `handleCancelTicket`,
`checkAndPerformReset`) is embedded as a pure function on the store state,
reflecting exactly the database writes it performs.  The "demo fallback"
branches of the handlers (taken when the store itself errors) write only to
the in-process replica, never to the store, so on the store state they are
the identity; where such a branch matters it is noted in the doc comment of
the corresponding definition.

Timestamps are Unix milliseconds modelled as `Nat`; database `TEXT` columns
are `String`; nullable columns are `Option`.
-/

/-- Ticket lifecycle states (enum `TicketStatus` of `types.ts`, enum
`ticket_status` of `db_schema.sql`). -/
inductive TicketStatus
  | WAITING
  | SERVING
  | COMPLETED
  | CANCELLED
  | NO_SHOW
deriving DecidableEq, Repr

/-- A row of the `tickets` table (type `Ticket` of `types.ts`). -/
structure Ticket where
  id : String
  number : String
  name : String
  phone : Option String
  serviceId : String
  serviceName : String
  status : TicketStatus
  joinedAt : Nat
  servedAt : Option Nat
  completedAt : Option Nat
  counter : Option Nat
deriving DecidableEq, Repr

/-- A row of the `counters` table (type `CounterState` of `types.ts`). -/
structure CounterState where
  id : Nat
  isOpen : Bool
  currentTicketId : Option String
  assignedStaffId : Option String
deriving DecidableEq, Repr

/-- A row of the `services` table (type `ServiceDefinition` of `types.ts`).
`pfx` is the `prefix` field (a Lean keyword, hence the renaming);
`defaultWaitTime` is minutes per ticket, with `none` modelling the column
being absent/null. -/
structure ServiceDefinition where
  id : String
  name : String
  pfx : String
  colorTheme : String
  defaultWaitTime : Option Nat
deriving DecidableEq, Repr

/-- `operatingHours` sub-object of `SystemSettings` (`types.ts`).
`startHHMM`/`endHHMM` are the `start`/`end` fields, "HH:MM" 24h strings
(`end` is a Lean keyword, hence the renaming). -/
structure OperatingHours where
  enabled : Bool
  startHHMM : String
  endHHMM : String
deriving DecidableEq, Repr

/-- The `system_settings` singleton row (type `SystemSettings` of `types.ts`). -/
structure SystemSettings where
  whatsappEnabled : Bool
  whatsappTemplate : String
  whatsappApiKey : Option String
  allowMobileEntry : Bool
  mobileEntryUrl : Option String
  operatingHours : OperatingHours
deriving DecidableEq, Repr

/-- The shared store state the queue handlers read and write: the `tickets`
and `counters` tables, in row order (inserts append, matching both the
`order('joined_at')` initial fetch and the INSERT realtime events). -/
structure AppState where
  tickets : List Ticket
  counters : List CounterState
deriving DecidableEq, Repr

/-- Outcome of the optimistic WAITING→SERVING conditional update. -/
inductive TransitionResult
  | served
  | staleTicket
deriving DecidableEq, Repr

/-- The conditional update at the heart of `handleCallNext` (App.tsx):

```
.update({ status: SERVING, counter_id: counterId, served_at: now })
.eq('id', ticketId).eq('status', WAITING).select().single()
```

The UPDATE applies to every row matching both filters; `.single()` then
reports an error unless exactly one row was returned, which is the
optimistic-lock failure (`staleTicket`) when the ticket is no longer
WAITING.  On that error the handler returns before the `counters` update,
so the store is left as the (vacuous) ticket update left it. -/
def transitionToServing (st : AppState) (ticketId : String) (counterId : Nat)
    (now : Nat) : AppState × TransitionResult :=
  let matched := st.tickets.filter
    (fun t => decide (t.id = ticketId ∧ t.status = TicketStatus.WAITING))
  let tickets' := st.tickets.map (fun t =>
    if t.id = ticketId ∧ t.status = TicketStatus.WAITING then
      { t with status := TicketStatus.SERVING, counter := some counterId,
               servedAt := some now }
    else t)
  if matched.length = 1 then
    let counters' := st.counters.map (fun c =>
      if c.id = counterId then { c with currentTicketId := some ticketId } else c)
    (⟨tickets', counters'⟩, TransitionResult.served)
  else
    ({ st with tickets := tickets' }, TransitionResult.staleTicket)

/-- Left-to-right scan keeping the element with strictly smaller `joinedAt`
(on a tie the earlier element is kept). -/
def pickOldest (b : Ticket) : List Ticket → Ticket
  | [] => b
  | t :: ts => pickOldest (if t.joinedAt < b.joinedAt then t else b) ts

/-- Embeds `tickets.filter(WAITING).sort((a, b) => a.joinedAt - b.joinedAt)[0]`
of `handleCallNext` (App.tsx).  `Array.prototype.sort` is stable, so the
head of the sorted array is the first element, in array order, among those
with minimal `joinedAt`; that is what this scan returns. -/
def selectOldestWaiting (ts : List Ticket) : Option Ticket :=
  match ts.filter (fun t => decide (t.status = TicketStatus.WAITING)) with
  | [] => none
  | t :: rest => some (pickOldest t rest)

/-- Outcome of `handleCallNext`. -/
inductive CallNextResult
  | noneWaiting
  | called (ticketId : String)
  | stale
deriving DecidableEq, Repr

/-- `handleCallNext` (App.tsx): pick the oldest WAITING ticket from the
current state; if none, return with no writes.  Otherwise run the
optimistic conditional update `transitionToServing`; on success also set
the counter's `current_ticket_id`.  On the optimistic-lock error the code
only force-updates the in-process replica ("forcing local update for
demo") and returns — no store write happens, so the store state is
returned unchanged by that branch. -/
def handleCallNext (st : AppState) (counterId : Nat) (now : Nat) :
    AppState × CallNextResult :=
  match selectOldestWaiting st.tickets with
  | none => (st, CallNextResult.noneWaiting)
  | some nt =>
    match transitionToServing st nt.id counterId now with
    | (st', TransitionResult.served) => (st', CallNextResult.called nt.id)
    | (st', TransitionResult.staleTicket) => (st', CallNextResult.stale)

/-- `handleUpdateTicketStatus` (App.tsx): unconditional update of the ticket
row by id — `update(updatePayload).eq('id', ticketId)` with no status
filter — setting `status`, and `completed_at = now` only when the new
status is COMPLETED.  Then the first counter of the replica whose
`currentTicketId` is this ticket (`counters.find(...)`) has its
`current_ticket_id` cleared by id. -/
def handleUpdateTicketStatus (st : AppState) (ticketId : String)
    (status : TicketStatus) (now : Nat) : AppState :=
  let tickets' := st.tickets.map (fun t =>
    if t.id = ticketId then
      { t with status := status,
               completedAt :=
                 if status = TicketStatus.COMPLETED then some now
                 else t.completedAt }
    else t)
  let counters' :=
    match st.counters.find? (fun c => decide (c.currentTicketId = some ticketId)) with
    | some c =>
      st.counters.map (fun c' =>
        if c'.id = c.id then { c' with currentTicketId := none } else c')
    | none => st.counters
  ⟨tickets', counters'⟩

/-- `handleCancelTicket` (App.tsx): unconditional
`update({ status: CANCELLED }).eq('id', ticketId)`; no status filter, no
`completed_at`, and no counter release. -/
def handleCancelTicket (st : AppState) (ticketId : String) : AppState :=
  { st with
    tickets := st.tickets.map (fun t =>
      if t.id = ticketId then { t with status := TicketStatus.CANCELLED } else t) }

/-- JS `String.prototype.padStart(n, c)`. -/
def padStart (s : String) (n : Nat) (c : Char) : String :=
  if n ≤ s.length then s else String.mk (List.replicate (n - s.length) c) ++ s

/-- Insertion into the `tickets` table.  Per `db_schema.sql` the only
uniqueness constraint on `tickets` is the PRIMARY KEY on `id`; in
particular there is no UNIQUE constraint on `number`, so rows with
duplicate ticket numbers are accepted.  `none` is the constraint
violation. -/
def ticketsInsert (db : List Ticket) (t : Ticket) : Option (List Ticket) :=
  if db.any (fun u => decide (u.id = t.id)) then none else some (db ++ [t])

/-- Result of `handleJoinQueue`: either a ticket, or the
`throw new Error("Service not found")` for an unknown service id.  No
other failure outcome exists in the handler. -/
inductive JoinResult
  | ok (t : Ticket)
  | unknownService
deriving DecidableEq, Repr

/-- `handleJoinQueue` (App.tsx).  The candidate sequence number is computed
client-side from the caller's current replica of the tickets table
(`view`): `count = tickets.filter(t => t.serviceId === serviceId).length`,
`seq = count + 1`, `number = prefix + seq.toString().padStart(3, '0')`
(the source comment reads "Race condition acceptable for MVP").  The row
is then inserted into the store (`db`); under concurrency two calls may
share the same `view` snapshot while the inserts hit the evolving `db`.
A single insert is attempted: on any insert error (store down, modelled by
`dbOk = false`, or a constraint violation from `ticketsInsert`) the
handler appends a local non-durable ticket with id `temp_${Date.now()}` to
the replica only and still returns it; the store is unchanged.  There is
no retry loop. -/
def handleJoinQueue (services : List ServiceDefinition) (view db : List Ticket)
    (name serviceId : String) (phone : Option String) (newId : String)
    (now : Nat) (dbOk : Bool) : JoinResult × List Ticket :=
  match services.find? (fun s => decide (s.id = serviceId)) with
  | none => (JoinResult.unknownService, db)
  | some service =>
    let count := (view.filter (fun t => decide (t.serviceId = serviceId))).length
    let seq := count + 1
    let number := service.pfx ++ padStart (toString seq) 3 '0'
    let newTicket : Ticket :=
      { id := newId, number := number, name := name, phone := phone,
        serviceId := serviceId, serviceName := service.name,
        status := TicketStatus.WAITING, joinedAt := now,
        servedAt := none, completedAt := none, counter := none }
    if dbOk then
      match ticketsInsert db newTicket with
      | some db' => (JoinResult.ok newTicket, db')
      | none =>
        (JoinResult.ok { newTicket with id := "temp_" ++ toString now }, db)
    else
      (JoinResult.ok { newTicket with id := "temp_" ++ toString now }, db)

/-- Per-service standard session duration in ms:
`(service.defaultWaitTime || 5) * 60 * 1000` of `calculateWaitTimes`
(DisplayView.tsx); JS `||` also maps an explicit `0` to the fallback `5`. -/
def standardTime (s : ServiceDefinition) : Nat :=
  (match s.defaultWaitTime with
   | some w => if w = 0 then 5 else w
   | none => 5) * 60000

/-- `standardTimes[t.serviceId] || 300000`: a ticket whose service is not in
the catalog falls back to 300000 ms (5 min).  A catalog hit is never 0, so
`||` has no effect on it. -/
def lookupStandardTime (services : List ServiceDefinition) (sid : String) : Nat :=
  match services.find? (fun s => decide (s.id = sid)) with
  | some s => standardTime s
  | none => 300000

/-- `calculateWaitTimes` (DisplayView.tsx, the display layer's wait
estimator), returning the `serviceEstimates` record as an association list
over the service catalog.  If the system is empty (no SERVING and no
WAITING tickets) every service gets estimate 0.  Otherwise the serving and
waiting backlogs are summed in ms and divided by the open-counter count
(`|| 1`), and minutes are rounded up.  JS computes
`Math.ceil((backlog / active) / 60000)` in floats over integer inputs; it
is embedded as the exact rational ceiling
`(backlog + active * 60000 - 1) / (active * 60000)` in `Nat`.  JS
`Math.max(30000, duration - elapsed)` with a possibly negative difference
agrees with `max 30000` of the truncated `Nat` subtraction. -/
def calculateWaitTimes (tickets : List Ticket) (counters : List CounterState)
    (services : List ServiceDefinition) (now : Nat) : List (String × Nat) :=
  let currentlyServing := tickets.filter
    (fun t => decide (t.status = TicketStatus.SERVING))
  let allWaiting := tickets.filter
    (fun t => decide (t.status = TicketStatus.WAITING))
  if currentlyServing.length = 0 ∧ allWaiting.length = 0 then
    services.map (fun s => (s.id, 0))
  else
    let openCount := (counters.filter (fun c => c.isOpen)).length
    let activeCountersCount := if openCount = 0 then 1 else openCount
    let servingBacklog := currentlyServing.foldl (fun acc t =>
      match t.servedAt with
      | none => acc + lookupStandardTime services t.serviceId
      | some sa =>
        if now < sa then acc + lookupStandardTime services t.serviceId
        else acc + max 30000 (lookupStandardTime services t.serviceId - (now - sa))) 0
    let waitingBacklog := allWaiting.foldl
      (fun acc t => acc + lookupStandardTime services t.serviceId) 0
    let totalBacklog := servingBacklog + waitingBacklog
    let estMinutes :=
      (totalBacklog + activeCountersCount * 60000 - 1) / (activeCountersCount * 60000)
    services.map (fun s => (s.id, estMinutes))

/-- The `reset_daily_queue` stored procedure (`db_schema.sql`):
`DELETE FROM tickets; UPDATE counters SET current_ticket_id = NULL;`. -/
def resetDailyQueue (st : AppState) : AppState :=
  ⟨[], st.counters.map (fun c => { c with currentTicketId := none })⟩

/-- Result of one scheduler tick: the persisted `nova_last_reset` date, the
store after the tick, and whether the wipe was performed on this tick. -/
structure ResetTick where
  lastResetDate : Option String
  store : AppState
  wiped : Bool
deriving DecidableEq, Repr

/-- `checkAndPerformReset` (App.tsx), run on each scheduler tick.  `today`
is `new Date().toDateString()`, `lastResetDate` the persisted
`nova_last_reset` value (`none` when never set).  When they differ, the
`reset_daily_queue` RPC is invoked; `rpcOk` models its outcome.  Only on
success is the new date persisted — on failure `lastResetDate` is left
unchanged, so the next tick retries. -/
def checkAndPerformReset (lastResetDate : Option String) (today : String)
    (rpcOk : Bool) (st : AppState) : ResetTick :=
  if lastResetDate ≠ some today then
    if rpcOk then ⟨some today, resetDailyQueue st, true⟩
    else ⟨lastResetDate, st, false⟩
  else ⟨lastResetDate, st, false⟩

/-- Two-digit zero-padded decimal. -/
def pad2 (n : Nat) : String := if n < 10 then "0" ++ toString n else toString n

/-- `now.toLocaleTimeString('en-GB', { hour12: false, hour: '2-digit',
minute: '2-digit' })` of `checkTime` (KioskView.tsx): the wall-clock time
as a zero-padded 24h "HH:MM" string. -/
def formatHHMM (h m : Nat) : String := pad2 h ++ ":" ++ pad2 m

/-- JS `<=` on strings: lexicographic comparison by UTF-16 code unit. -/
def lexLe : List Char → List Char → Bool
  | [], _ => true
  | _ :: _, [] => false
  | x :: xs, y :: ys =>
    if x < y then true else if y < x then false else lexLe xs ys

/-- JS string comparison `a <= b`. -/
def jsStringLe (a b : String) : Bool := lexLe a.toList b.toList

/-- `checkTime` (KioskView.tsx): the shop is open when the operating-hours
gate is disabled, and otherwise exactly when
`start <= currentTimeString && currentTimeString <= end` under JS string
comparison. -/
def isShopOpen (settings : SystemSettings) (nowStr : String) : Bool :=
  if settings.operatingHours.enabled = false then true
  else jsStringLe settings.operatingHours.startHHMM nowStr
       && jsStringLe nowStr settings.operatingHours.endHHMM

/-- The entry-point gate: `KioskView` renders the closed-shop screen — which
has no join form, so no `onJoinQueue` call can be made — exactly when
`isShopOpen` is false; otherwise the join flow is available. -/
def kioskAllowsJoin (settings : SystemSettings) (nowStr : String) : Bool :=
  isShopOpen settings nowStr

/-- Split a character list at the first occurrence of `pat`: JS
`s.indexOf(pat)` semantics.  Returns the part before the occurrence and
the part after it, or `none` when `pat` does not occur. -/
def splitFirst (pat : List Char) : List Char → Option (List Char × List Char)
  | [] => if pat = [] then some ([], []) else none
  | c :: cs =>
    if pat.isPrefixOf (c :: cs) then some ([], (c :: cs).drop pat.length)
    else
      match splitFirst pat cs with
      | some (a, b) => some (c :: a, b)
      | none => none

/-- JS `String.prototype.replace` with a string pattern: replaces only the
first occurrence of `pat`, leaving the rest of the string untouched.
(`$`-escapes in the replacement are not modelled.) -/
def replaceFirst (s pat r : List Char) : List Char :=
  match splitFirst pat s with
  | none => s
  | some (a, b) => a ++ r ++ b

/-- JS `s.replace(pat, r)` on strings. -/
def jsReplace (s pat r : String) : String :=
  String.mk (replaceFirst s.toList pat.toList r.toList)

/-- The notification message construction of `sendWhatsAppNotification`
(CounterView component):

```
systemSettings.whatsappTemplate
  .replace('{name}', currentTicket.name)
  .replace('{number}', currentTicket.number)
  .replace('{service}', currentTicket.serviceName)
  .replace('{counter}', currentCounterId.toString())
```
-/
def renderWhatsAppMessage (template n num svc : String) (counterId : Nat) : String :=
  jsReplace
    (jsReplace (jsReplace (jsReplace template "{name}" n) "{number}" num)
      "{service}" svc)
    "{counter}" (toString counterId)

/-- The counter/ticket cross-reference invariant of the data model: a
counter's non-null `currentTicketId` references a ticket that is SERVING
at that counter, and no two counters with different ids hold the same
ticket as current. -/
def StateInv (st : AppState) : Prop :=
  (∀ c ∈ st.counters, ∀ tid, c.currentTicketId = some tid →
    ∃ t, t ∈ st.tickets ∧ t.id = tid ∧ t.status = TicketStatus.SERVING ∧
      t.counter = some c.id) ∧
  (∀ c ∈ st.counters, ∀ c' ∈ st.counters, ∀ tid,
    c.currentTicketId = some tid → c'.currentTicketId = some tid → c.id = c'.id)

/-! ## Concrete fixtures used by witnesses and counterexamples -/

/-- Service `srv_1` as seeded (`constants.ts` / `db_schema.sql`). -/
def srv1 : ServiceDefinition :=
  { id := "srv_1", name := "General Inquiry", pfx := "A", colorTheme := "blue",
    defaultWaitTime := some 5 }

/-- A sample ticket for `srv_1`. -/
def mkTicket (i : String) (s : TicketStatus) (j : Nat) : Ticket :=
  { id := i, number := "A001", name := "Alice", phone := none,
    serviceId := "srv_1", serviceName := "General Inquiry", status := s,
    joinedAt := j, servedAt := none, completedAt := none, counter := none }

/-- `DEFAULT_SETTINGS` (App.tsx). -/
def defaultSettings : SystemSettings :=
  { whatsappEnabled := true,
    whatsappTemplate := "Hello {name}, your turn for {service} is coming up! Your ticket number is {number}. Please proceed to Counter {counter}.",
    whatsappApiKey := some "",
    allowMobileEntry := true,
    mobileEntryUrl := some "",
    operatingHours := { enabled := true, startHHMM := "09:00", endHHMM := "17:00" } }

/-! ## C3 — wait estimate on an empty system -/

/-- C3: in every state with no WAITING ticket and no SERVING ticket, the
display-layer wait estimator returns an estimate of 0 minutes for every
service in the catalog. -/
theorem waitEstimate_empty_system (tickets : List Ticket)
    (counters : List CounterState) (services : List ServiceDefinition) (now : Nat)
    (h : ∀ t ∈ tickets, t.status ≠ TicketStatus.SERVING ∧
         t.status ≠ TicketStatus.WAITING) :
    calculateWaitTimes tickets counters services now =
      services.map (fun s => (s.id, 0)) := by
  have hs : tickets.filter (fun t => decide (t.status = TicketStatus.SERVING)) = [] := by
    simp only [List.filter_eq_nil_iff, decide_eq_true_eq]
    exact fun t ht => (h t ht).1
  have hw : tickets.filter (fun t => decide (t.status = TicketStatus.WAITING)) = [] := by
    simp only [List.filter_eq_nil_iff, decide_eq_true_eq]
    exact fun t ht => (h t ht).2
  simp only [calculateWaitTimes, hs, hw, List.length_nil, and_self, if_true]

/-- C3 witness: on the seeded service catalog with no tickets at all, every
service's estimate is 0. -/
theorem waitEstimate_empty_system_witness :
    calculateWaitTimes [] [] [srv1] 0 = [("srv_1", 0)] :=
  waitEstimate_empty_system [] [] [srv1] 0 (by intro t ht; cases ht)

/-! ## C8 — operating-hours gate at the entry point -/

/-- C8: when the operating-hours setting is disabled the kiosk entry point
permits Join at every wall-clock time; with the gate enabled on the 09:00–
17:00 window, at wall-clock 20:00 the entry point refuses new joins. -/
theorem operatingHours_gate (settings : SystemSettings) (nowStr : String)
    (hdis : settings.operatingHours.enabled = false) :
    kioskAllowsJoin settings nowStr = true ∧
    kioskAllowsJoin defaultSettings (formatHHMM 20 0) = false := by
  constructor
  · simp [kioskAllowsJoin, isShopOpen, hdis]
  · decide

/-- C8 witness: with the gate disabled, joining at 20:00 is permitted, while
the default 09:00–17:00 settings refuse it. -/
theorem operatingHours_gate_witness :
    kioskAllowsJoin
      { defaultSettings with
        operatingHours := { enabled := false, startHHMM := "09:00", endHHMM := "17:00" } }
      (formatHHMM 20 0) = true ∧
    kioskAllowsJoin defaultSettings (formatHHMM 20 0) = false :=
  operatingHours_gate _ (formatHHMM 20 0) rfl

/-! ## C7 — daily reset scheduler -/

/-- C7: two scheduler ticks on the same calendar date perform the wipe at
most once; starting from a stale `lastResetDate`, a successful tick wipes
and persists the date, and a successful tick on a later different date
wipes again (two wipes for two dates); when the reset RPC fails the
last-reset date and the store are left unchanged, so a following
successful tick on the same date retries and performs the wipe. -/
theorem dailyReset_schedule (l : Option String) (d d2 : String) (st : AppState)
    (hld : l ≠ some d) (hd : d2 ≠ d) :
    (∀ ok1 ok2 : Bool,
      ¬(((checkAndPerformReset l d ok1 st).wiped = true) ∧
        ((checkAndPerformReset (checkAndPerformReset l d ok1 st).lastResetDate d
            ok2 (checkAndPerformReset l d ok1 st).store).wiped = true))) ∧
    ((checkAndPerformReset l d true st).wiped = true ∧
     (checkAndPerformReset l d true st).lastResetDate = some d ∧
     (checkAndPerformReset l d true st).store = resetDailyQueue st) ∧
    ((checkAndPerformReset (checkAndPerformReset l d true st).lastResetDate d2
        true (checkAndPerformReset l d true st).store).wiped = true) ∧
    ((checkAndPerformReset l d false st).wiped = false ∧
     (checkAndPerformReset l d false st).lastResetDate = l ∧
     (checkAndPerformReset l d false st).store = st) := by
  refine ⟨?_, ?_, ?_, ?_⟩
  · intro ok1 ok2
    by_cases h1 : l = some d
    · simp [checkAndPerformReset, h1]
    · cases ok1 with
      | true => simp [checkAndPerformReset, h1]
      | false => simp [checkAndPerformReset, h1]
  · simp [checkAndPerformReset, hld]
  · have hne : (some d : Option String) ≠ some d2 := by
      intro hcon
      exact hd (Option.some.inj hcon).symm
    simp [checkAndPerformReset, hld, hne]
  · simp [checkAndPerformReset, hld]

/-- C7 witness: from a never-reset state on "Mon Oct 06 2025", a successful
tick wipes; a failed tick changes nothing; a tick on "Tue Oct 07 2025"
after the successful one wipes again; two same-day ticks never wipe twice. -/
theorem dailyReset_schedule_witness :
    (¬(((checkAndPerformReset none "Mon Oct 06 2025" true
          ⟨[mkTicket "x" TicketStatus.WAITING 5], []⟩).wiped = true) ∧
       ((checkAndPerformReset
           (checkAndPerformReset none "Mon Oct 06 2025" true
             ⟨[mkTicket "x" TicketStatus.WAITING 5], []⟩).lastResetDate
           "Mon Oct 06 2025" true
           (checkAndPerformReset none "Mon Oct 06 2025" true
             ⟨[mkTicket "x" TicketStatus.WAITING 5], []⟩).store).wiped = true))) ∧
    (checkAndPerformReset none "Mon Oct 06 2025" true
       ⟨[mkTicket "x" TicketStatus.WAITING 5], []⟩).wiped = true ∧
    (checkAndPerformReset
       (checkAndPerformReset none "Mon Oct 06 2025" true
         ⟨[mkTicket "x" TicketStatus.WAITING 5], []⟩).lastResetDate
       "Tue Oct 07 2025" true
       (checkAndPerformReset none "Mon Oct 06 2025" true
         ⟨[mkTicket "x" TicketStatus.WAITING 5], []⟩).store).wiped = true ∧
    (checkAndPerformReset none "Mon Oct 06 2025" false
       ⟨[mkTicket "x" TicketStatus.WAITING 5], []⟩).lastResetDate = none := by
  have h := dailyReset_schedule none "Mon Oct 06 2025" "Tue Oct 07 2025"
    ⟨[mkTicket "x" TicketStatus.WAITING 5], []⟩ (by decide) (by decide)
  exact ⟨h.1 true true, h.2.1.1, h.2.2.1, h.2.2.2.2.1⟩

/-! ## C2 — terminal statuses are not enforced -/

/-- A COMPLETED ticket, as left by a full serve cycle. -/
def completedTicket : Ticket :=
  { id := "x", number := "A001", name := "Alice", phone := none,
    serviceId := "srv_1", serviceName := "General Inquiry",
    status := TicketStatus.COMPLETED, joinedAt := 5, servedAt := some 10,
    completedAt := some 20, counter := some 1 }

/-- C2 counterexample: updating a COMPLETED ticket to CANCELLED does not
fail — the handler has no status check and no `InvalidTransition` error —
and it does not leave the ticket unchanged: the status is overwritten. -/
theorem updateStatus_from_completed_succeeds :
    (handleUpdateTicketStatus ⟨[completedTicket], []⟩ "x"
        TicketStatus.CANCELLED 99).tickets =
      [{ completedTicket with status := TicketStatus.CANCELLED }] ∧
    handleUpdateTicketStatus ⟨[completedTicket], []⟩ "x"
        TicketStatus.CANCELLED 99 ≠ ⟨[completedTicket], []⟩ := by
  constructor
  · decide
  · decide

/-- C2 amended: `handleUpdateTicketStatus` never rejects a transition.  For
every current status — including the terminal ones — it overwrites the
target ticket's status with the requested status, setting
`completedAt = now` exactly when the requested status is COMPLETED and
preserving it otherwise; no `InvalidTransition` failure exists in the
code. -/
theorem updateStatus_unconditional (st : AppState) (tid : String)
    (s : TicketStatus) (now : Nat) (t : Ticket) (ht : t ∈ st.tickets)
    (hid : t.id = tid) :
    ({ t with status := s,
              completedAt := if s = TicketStatus.COMPLETED then some now
                             else t.completedAt }) ∈
      (handleUpdateTicketStatus st tid s now).tickets := by
  simp only [handleUpdateTicketStatus, List.mem_map]
  exact ⟨t, ht, by rw [if_pos hid]⟩

/-- C2 amended witness: the COMPLETED→CANCELLED overwrite is reachable on a
concrete state. -/
theorem updateStatus_unconditional_witness :
    ({ completedTicket with
        status := TicketStatus.CANCELLED,
        completedAt := completedTicket.completedAt } : Ticket) ∈
      (handleUpdateTicketStatus ⟨[completedTicket], []⟩ "x"
        TicketStatus.CANCELLED 99).tickets := by
  have h := updateStatus_unconditional ⟨[completedTicket], []⟩ "x"
    TicketStatus.CANCELLED 99 completedTicket (by decide) (by decide)
  simpa using h

/-! ## C1 — at most one counter claims a ticket -/

/-- After the conditional WAITING→SERVING update has run for ticket `x`, no
ticket of the resulting table is both identified by `x` and WAITING:
matched rows were moved to SERVING and unmatched rows did not satisfy the
filter to begin with. -/
theorem filter_after_transition (l : List Ticket) (x : String) (cid now : Nat) :
    (l.map (fun t =>
      if t.id = x ∧ t.status = TicketStatus.WAITING then
        { t with status := TicketStatus.SERVING, counter := some cid,
                 servedAt := some now }
      else t)).filter
      (fun t => decide (t.id = x ∧ t.status = TicketStatus.WAITING)) = [] := by
  induction l with
  | nil => rfl
  | cons t ts ih =>
    by_cases hc : t.id = x ∧ t.status = TicketStatus.WAITING
    · simp only [List.map_cons, if_pos hc, List.filter_cons]
      rw [if_neg (by simp)]
      exact ih
    · simp only [List.map_cons, if_neg hc, List.filter_cons]
      rw [if_neg (by simpa using hc)]
      exact ih

/-- On a state whose tickets table has no row matching the conditional
update's filter, the claim fails stale and the store is unchanged. -/
theorem transition_no_match (st : AppState) (x : String) (cid now : Nat)
    (hnone : st.tickets.filter
      (fun t => decide (t.id = x ∧ t.status = TicketStatus.WAITING)) = []) :
    transitionToServing st x cid now = (st, TransitionResult.staleTicket) := by
  have hall : ∀ t ∈ st.tickets, ¬(t.id = x ∧ t.status = TicketStatus.WAITING) := by
    intro t htm
    have := List.filter_eq_nil_iff.mp hnone t htm
    simpa using this
  have hlen : ¬ (st.tickets.filter
      (fun t => decide (t.id = x ∧ t.status = TicketStatus.WAITING))).length = 1 := by
    rw [hnone]
    simp
  have hid : (st.tickets.map (fun t =>
      if t.id = x ∧ t.status = TicketStatus.WAITING then
        { t with status := TicketStatus.SERVING, counter := some cid,
                 servedAt := some now }
      else t)) = st.tickets := by
    calc (st.tickets.map (fun t =>
            if t.id = x ∧ t.status = TicketStatus.WAITING then
              { t with status := TicketStatus.SERVING, counter := some cid,
                       servedAt := some now }
            else t))
        = st.tickets.map id := by
          apply List.map_congr_left
          intro t htm
          rw [if_neg (hall t htm)]
          rfl
      _ = st.tickets := List.map_id _
  simp only [transitionToServing, if_neg hlen, hid]

/-- C1: if the call-next claim of a ticket — the update conditional on
`status = WAITING` — succeeds for one caller, then an immediately
following second claim of the same ticket id fails with the optimistic
stale-ticket error and writes nothing to the store: no ticket and no
counter changes, so at most one counter ever claims a given ticket. -/
theorem transition_second_call_stale (st : AppState) (x : String)
    (c1 c2 n1 n2 : Nat)
    (h : (transitionToServing st x c1 n1).2 = TransitionResult.served) :
    (transitionToServing (transitionToServing st x c1 n1).1 x c2 n2).2 =
        TransitionResult.staleTicket ∧
    (transitionToServing (transitionToServing st x c1 n1).1 x c2 n2).1 =
        (transitionToServing st x c1 n1).1 := by
  by_cases hm : (st.tickets.filter
      (fun t => decide (t.id = x ∧ t.status = TicketStatus.WAITING))).length = 1
  · have hst1 : (transitionToServing st x c1 n1).1 =
        ⟨st.tickets.map (fun t =>
          if t.id = x ∧ t.status = TicketStatus.WAITING then
            { t with status := TicketStatus.SERVING, counter := some c1,
                     servedAt := some n1 }
          else t),
         st.counters.map (fun c =>
          if c.id = c1 then { c with currentTicketId := some x } else c)⟩ := by
      simp only [transitionToServing, if_pos hm]
    have hempty := filter_after_transition st.tickets x c1 n1
    have hnone : ((transitionToServing st x c1 n1).1.tickets.filter
        (fun t => decide (t.id = x ∧ t.status = TicketStatus.WAITING))) = [] := by
      rw [hst1]
      exact hempty
    have hlen : ¬ ((transitionToServing st x c1 n1).1.tickets.filter
        (fun t => decide (t.id = x ∧ t.status = TicketStatus.WAITING))).length = 1 := by
      rw [hnone]
      simp
    have h2 := transition_no_match (transitionToServing st x c1 n1).1 x c2 n2 hnone
    rw [h2]
    exact ⟨rfl, rfl⟩
  · exfalso
    simp only [transitionToServing, if_neg hm] at h
    cases h

/-- C1 witness: on a one-ticket WAITING store, counter 1's claim succeeds
and an immediately following claim of the same ticket by counter 2 is
stale and leaves the store exactly as the first claim left it. -/
theorem transition_second_call_stale_witness :
    (transitionToServing
        (transitionToServing
          ⟨[mkTicket "x" TicketStatus.WAITING 5], [⟨1, true, none, none⟩]⟩
          "x" 1 50).1 "x" 2 60).2 = TransitionResult.staleTicket ∧
    (transitionToServing
        (transitionToServing
          ⟨[mkTicket "x" TicketStatus.WAITING 5], [⟨1, true, none, none⟩]⟩
          "x" 1 50).1 "x" 2 60).1 =
      (transitionToServing
        ⟨[mkTicket "x" TicketStatus.WAITING 5], [⟨1, true, none, none⟩]⟩
        "x" 1 50).1 :=
  transition_second_call_stale
    ⟨[mkTicket "x" TicketStatus.WAITING 5], [⟨1, true, none, none⟩]⟩
    "x" 1 2 50 60 (by decide)

/-! ## C10 — frame of the terminal-status update -/

/-- C10: a terminal-status update touches only the target ticket row — its
`status`, plus `completedAt` exactly when the new status is COMPLETED —
and at most one counter row: the first counter whose `currentTicketId`
equals the ticket id has that field cleared (its `isOpen` and
`assignedStaffId` are kept), and with distinct counter ids that row is
unique; every other ticket row and counter row is returned unchanged at
its position. -/
theorem updateStatus_frame (st : AppState) (tid : String) (s : TicketStatus)
    (now : Nat) (hc : (st.counters.map (fun c => c.id)).Nodup) :
    ((handleUpdateTicketStatus st tid s now).tickets.length = st.tickets.length) ∧
    (∀ i t, st.tickets.get? i = some t → t.id ≠ tid →
       (handleUpdateTicketStatus st tid s now).tickets.get? i = some t) ∧
    (∀ i t, st.tickets.get? i = some t → t.id = tid →
       (handleUpdateTicketStatus st tid s now).tickets.get? i =
         some { t with status := s,
                       completedAt := if s = TicketStatus.COMPLETED then some now
                                      else t.completedAt }) ∧
    (st.counters.find? (fun c => decide (c.currentTicketId = some tid)) = none →
       (handleUpdateTicketStatus st tid s now).counters = st.counters) ∧
    (∀ c0, st.counters.find? (fun c => decide (c.currentTicketId = some tid)) =
        some c0 →
      (∀ i c, st.counters.get? i = some c → c.id ≠ c0.id →
         (handleUpdateTicketStatus st tid s now).counters.get? i = some c) ∧
      (∀ i c, st.counters.get? i = some c → c.id = c0.id →
         (handleUpdateTicketStatus st tid s now).counters.get? i =
           some { c with currentTicketId := none }) ∧
      (∀ i j c c', st.counters.get? i = some c → st.counters.get? j = some c' →
         c.id = c0.id → c'.id = c0.id → i = j)) := by
  refine ⟨?_, ?_, ?_, ?_, ?_⟩
  · simp [handleUpdateTicketStatus]
  · intro i t hti hne
    simp only [handleUpdateTicketStatus]
    rw [List.get?_map, hti]
    simp [if_neg hne]
  · intro i t hti heq
    simp only [handleUpdateTicketStatus]
    rw [List.get?_map, hti]
    simp [if_pos heq]
  · intro hf
    simp only [handleUpdateTicketStatus, hf]
  · intro c0 hf
    refine ⟨?_, ?_, ?_⟩
    · intro i c hci hne
      simp only [handleUpdateTicketStatus, hf]
      rw [List.get?_map, hci]
      simp [if_neg hne]
    · intro i c hci heq
      simp only [handleUpdateTicketStatus, hf]
      rw [List.get?_map, hci]
      simp [if_pos heq]
    · intro i j c c' hci hcj hic hjc
      have hilt : i < st.counters.length := by
        by_contra hge
        rw [List.get?_eq_none.mpr (Nat.le_of_not_lt hge)] at hci
        cases hci
      have hmapi : (st.counters.map (fun c => c.id)).get? i = some c0.id := by
        rw [List.get?_map, hci]
        simp [hic]
      have hmapj : (st.counters.map (fun c => c.id)).get? j = some c0.id := by
        rw [List.get?_map, hcj]
        simp [hjc]
      exact List.get?_inj (by simpa using hilt) hc (hmapi.trans hmapj.symm)

/-- A two-ticket, two-counter state with counter 1 serving ticket `x`. -/
def stFrame : AppState :=
  ⟨[{ mkTicket "x" TicketStatus.SERVING 5 with
        servedAt := some 10,
        counter := some 1 },
    mkTicket "y" TicketStatus.WAITING 6],
   [⟨1, true, some "x", none⟩, ⟨2, true, none, none⟩]⟩

/-- C10 witness: completing ticket `x` on `stFrame` keeps the table sizes,
leaves ticket `y` and counter 2 untouched, and only clears counter 1's
current ticket. -/
theorem updateStatus_frame_witness :
    (handleUpdateTicketStatus stFrame "x" TicketStatus.COMPLETED 99).tickets.length =
      stFrame.tickets.length ∧
    (handleUpdateTicketStatus stFrame "x" TicketStatus.COMPLETED 99).tickets.get? 1 =
      some (mkTicket "y" TicketStatus.WAITING 6) ∧
    (handleUpdateTicketStatus stFrame "x" TicketStatus.COMPLETED 99).counters.get? 1 =
      some ⟨2, true, none, none⟩ ∧
    (handleUpdateTicketStatus stFrame "x" TicketStatus.COMPLETED 99).counters.get? 0 =
      some ⟨1, true, none, none⟩ := by
  have h := updateStatus_frame stFrame "x" TicketStatus.COMPLETED 99 (by decide)
  have h5 := h.2.2.2.2 ⟨1, true, some "x", none⟩ (by decide)
  refine ⟨h.1,
    h.2.1 1 (mkTicket "y" TicketStatus.WAITING 6) (by decide) (by decide),
    h5.1 1 ⟨2, true, none, none⟩ (by decide) (by decide), ?_⟩
  have hcl := h5.2.1 0 ⟨1, true, some "x", none⟩ (by decide) (by decide)
  simpa using hcl

/-! ## C4 — sequence allocation under concurrent joins -/

/-- C4 counterexample: two Join calls that race on "count existing" — both
computing their candidate from the same snapshot (the empty queue) — both
compute `A001`, and the store accepts both rows: the tickets table has no
uniqueness constraint on `number` (only the id primary key), so the loser
is not rejected, nothing retries, and no `AllocationExhausted` failure
occurs — the store ends up holding two `A001` tickets. -/
theorem join_race_duplicate_numbers :
    (handleJoinQueue [srv1] []
        (handleJoinQueue [srv1] [] [] "Alice" "srv_1" none "t1" 100 true).2
        "Bob" "srv_1" none "t2" 101 true).1 =
      JoinResult.ok
        { id := "t2", number := "A001", name := "Bob", phone := none,
          serviceId := "srv_1", serviceName := "General Inquiry",
          status := TicketStatus.WAITING, joinedAt := 101, servedAt := none,
          completedAt := none, counter := none } ∧
    ((handleJoinQueue [srv1] []
        (handleJoinQueue [srv1] [] [] "Alice" "srv_1" none "t1" 100 true).2
        "Bob" "srv_1" none "t2" 101 true).2.map (fun t => t.number)) =
      ["A001", "A001"] := by
  constructor
  · decide
  · decide

/-- C4 amended: `handleJoinQueue` makes exactly one insert attempt and has
no `AllocationExhausted` outcome: it either fails `UnknownService` for an
unknown service id (store untouched), or returns a ticket whose number is
the prefix plus the zero-padded snapshot count + 1, with the store gaining
at most that one row — even when that number already occurs in the store,
since the schema's only uniqueness constraint on tickets is the id primary
key; on an insert error the returned ticket is the local non-durable
`temp_` fallback and the store is unchanged. -/
theorem join_single_attempt (services : List ServiceDefinition)
    (view db : List Ticket) (name serviceId : String) (phone : Option String)
    (newId : String) (now : Nat) (dbOk : Bool) :
    (services.find? (fun s => decide (s.id = serviceId)) = none →
      handleJoinQueue services view db name serviceId phone newId now dbOk =
        (JoinResult.unknownService, db)) ∧
    (∀ service, services.find? (fun s => decide (s.id = serviceId)) = some service →
      ∃ t, (handleJoinQueue services view db name serviceId phone newId now dbOk).1 =
          JoinResult.ok t ∧
        t.number = service.pfx ++
          padStart (toString
            ((view.filter (fun u => decide (u.serviceId = serviceId))).length + 1))
            3 '0' ∧
        ((handleJoinQueue services view db name serviceId phone newId now dbOk).2 =
            db ++ [t] ∨
         (handleJoinQueue services view db name serviceId phone newId now dbOk).2 =
            db)) := by
  constructor
  · intro hf
    simp only [handleJoinQueue, hf]
  · intro service hf
    simp only [handleJoinQueue, hf]
    cases dbOk with
    | false =>
      exact ⟨_, rfl, rfl, Or.inr rfl⟩
    | true =>
      by_cases hins : db.any (fun u => decide (u.id = newId))
      · simp only [ticketsInsert, if_pos hins]
        exact ⟨_, rfl, rfl, Or.inr rfl⟩
      · simp only [ticketsInsert, if_neg hins]
        exact ⟨_, rfl, rfl, Or.inl rfl⟩

/-- C4 amended witness: an unknown service id fails `UnknownService`, and a
join for `srv_1` from the empty snapshot produces ticket number `A001`
with the store gaining exactly that row. -/
theorem join_single_attempt_witness :
    handleJoinQueue [srv1] [] [] "Alice" "srv_9" none "t1" 100 true =
      (JoinResult.unknownService, []) ∧
    (handleJoinQueue [srv1] [] [] "Alice" "srv_1" none "t1" 100 true).1 =
      JoinResult.ok (mkTicket "t1" TicketStatus.WAITING 100) := by
  constructor
  · exact (join_single_attempt [srv1] [] [] "Alice" "srv_9" none "t1" 100 true).1
      (by decide)
  · obtain ⟨t, h1, h2, h3⟩ := (join_single_attempt [srv1] [] [] "Alice" "srv_1"
      none "t1" 100 true).2 srv1 (by decide)
    exact h1.trans (by rw [← h1]; decide)

/-! ## C6 — FIFO selection of the next ticket -/

/-- The left-to-right minimum scan returns an element of `b :: l` that is
the first, in list order, among those with minimal `joinedAt`: everything
before it is strictly younger in queue order (strictly larger `joinedAt`),
and nothing anywhere beats it. -/
theorem pickOldest_spec (l : List Ticket) (b : Ticket) :
    ∃ l₁ l₂, b :: l = l₁ ++ pickOldest b l :: l₂ ∧
      (∀ u ∈ l₁, (pickOldest b l).joinedAt < u.joinedAt) ∧
      (pickOldest b l).joinedAt ≤ b.joinedAt ∧
      (∀ u ∈ l, (pickOldest b l).joinedAt ≤ u.joinedAt) := by
  induction l generalizing b with
  | nil =>
    exact ⟨[], [], rfl, by simp, Nat.le_refl _, by simp⟩
  | cons t ts ih =>
    by_cases hb : t.joinedAt < b.joinedAt
    · have hstep : pickOldest b (t :: ts) = pickOldest t ts := by
        simp [pickOldest, if_pos hb]
      rw [hstep]
      obtain ⟨l₁, l₂, hsplit, hlt, hle, hmin⟩ := ih t
      refine ⟨b :: l₁, l₂, ?_, ?_, ?_, ?_⟩
      · rw [List.cons_append, ← hsplit]
      · intro u hu
        rcases List.mem_cons.mp hu with h | h
        · rw [h]
          exact Nat.lt_of_le_of_lt hle hb
        · exact hlt u h
      · exact Nat.le_of_lt (Nat.lt_of_le_of_lt hle hb)
      · intro u hu
        rcases List.mem_cons.mp hu with h | h
        · rw [h]
          exact hle
        · exact hmin u h
    · have hstep : pickOldest b (t :: ts) = pickOldest b ts := by
        simp [pickOldest, if_neg hb]
      have hbt : b.joinedAt ≤ t.joinedAt := Nat.le_of_not_lt hb
      rw [hstep]
      obtain ⟨l₁, l₂, hsplit, hlt, hle, hmin⟩ := ih b
      cases l₁ with
      | nil =>
        simp only [List.nil_append] at hsplit
        have hr : pickOldest b ts = b := by
          injection hsplit with h1 h2
          exact h1.symm
        have hts : l₂ = ts := by
          injection hsplit with h1 h2
          exact h2.symm
        refine ⟨[], t :: ts, by simp [hr], by simp, hle, ?_⟩
        intro u hu
        rcases List.mem_cons.mp hu with h | h
        · rw [h, hr]
          exact hbt
        · exact hmin u h
      | cons hd m =>
        simp only [List.cons_append] at hsplit
        have hhd : hd = b := by
          injection hsplit with h1 h2
          exact h1.symm
        have hts : ts = m ++ pickOldest b ts :: l₂ := by
          injection hsplit
        have hltb : (pickOldest b ts).joinedAt < b.joinedAt := by
          have := hlt hd (List.mem_cons_self hd m)
          rw [hhd] at this
          exact this
        refine ⟨b :: t :: m, l₂, ?_, ?_, hle, ?_⟩
        · rw [List.cons_append, List.cons_append, ← hts]
        · intro u hu
          rcases List.mem_cons.mp hu with h | h
          · rw [h]
            exact hltb
          · rcases List.mem_cons.mp h with h' | h'
            · rw [h']
              exact Nat.lt_of_lt_of_le hltb hbt
            · exact hlt u (List.mem_cons_of_mem hd h')
        · intro u hu
          rcases List.mem_cons.mp hu with h | h
          · rw [h]
            exact Nat.le_of_lt (Nat.lt_of_lt_of_le hltb hbt)
          · exact hmin u h

/-- C6: `handleCallNext` with no WAITING ticket returns the none-waiting
outcome and writes nothing — the returned state is the input state.  When
the selection yields a ticket, that ticket is WAITING, has minimal
`joinedAt` among all WAITING tickets, and is the first in table order
among those tying on `joinedAt` (every earlier WAITING ticket is strictly
larger), so the choice is deterministic: table order — creation order,
since inserts append — is the tie-breaking secondary key. -/
theorem callNext_fifo (st : AppState) (cid now : Nat) :
    (st.tickets.filter (fun t => decide (t.status = TicketStatus.WAITING)) = [] →
      handleCallNext st cid now = (st, CallNextResult.noneWaiting)) ∧
    (∀ t, selectOldestWaiting st.tickets = some t →
      t.status = TicketStatus.WAITING ∧
      (∀ u ∈ st.tickets.filter (fun u => decide (u.status = TicketStatus.WAITING)),
         t.joinedAt ≤ u.joinedAt) ∧
      ∃ l₁ l₂,
        st.tickets.filter (fun u => decide (u.status = TicketStatus.WAITING)) =
          l₁ ++ t :: l₂ ∧
        (∀ u ∈ l₁, t.joinedAt < u.joinedAt)) := by
  constructor
  · intro h
    simp only [handleCallNext, selectOldestWaiting, h]
  · intro t ht
    rcases hw : st.tickets.filter
        (fun u => decide (u.status = TicketStatus.WAITING)) with _ | ⟨h0, rest⟩
    · rw [selectOldestWaiting, hw] at ht
      cases ht
    · rw [selectOldestWaiting, hw] at ht
      have htv : t = pickOldest h0 rest := by
        injection ht with h1
        exact h1.symm
      obtain ⟨l₁, l₂, hsplit, hlt, hle, hmin⟩ := pickOldest_spec rest h0
      have hsplitw : st.tickets.filter
          (fun u => decide (u.status = TicketStatus.WAITING)) = l₁ ++ t :: l₂ := by
        rw [hw, htv, hsplit]
      have htmem : t ∈ st.tickets.filter
          (fun u => decide (u.status = TicketStatus.WAITING)) := by
        rw [hsplitw]
        exact List.mem_append_right _ (List.mem_cons_self t l₂)
      refine ⟨?_, ?_, l₁, l₂, hsplitw, ?_⟩
      · have := List.of_mem_filter htmem
        simpa using this
      · intro u hu
        rw [hw] at hu
        rcases List.mem_cons.mp hu with h | h
        · rw [h, htv]
          exact hle
        · rw [htv]
          exact hmin u h
      · intro u hu
        rw [htv]
        exact hlt u hu

/-- A three-ticket queue: `a` joined at 5, `b` and `c` tie at 3 with `b`
earlier in table (creation) order. -/
def stTie : AppState :=
  ⟨[mkTicket "a" TicketStatus.WAITING 5, mkTicket "b" TicketStatus.WAITING 3,
    mkTicket "c" TicketStatus.WAITING 3],
   [⟨1, true, none, none⟩]⟩

/-- C6 witness: on an all-terminal queue, call-next is a no-op returning
none-waiting; on the tied queue `stTie` the selection is `b` — WAITING,
minimal, and first among the tied — so the choice is deterministic. -/
theorem callNext_fifo_witness :
    handleCallNext ⟨[mkTicket "z" TicketStatus.COMPLETED 1], []⟩ 1 0 =
      (⟨[mkTicket "z" TicketStatus.COMPLETED 1], []⟩, CallNextResult.noneWaiting) ∧
    ((mkTicket "b" TicketStatus.WAITING 3).status = TicketStatus.WAITING ∧
      (∀ u ∈ stTie.tickets.filter
          (fun u => decide (u.status = TicketStatus.WAITING)),
        (mkTicket "b" TicketStatus.WAITING 3).joinedAt ≤ u.joinedAt) ∧
      ∃ l₁ l₂,
        stTie.tickets.filter (fun u => decide (u.status = TicketStatus.WAITING)) =
          l₁ ++ mkTicket "b" TicketStatus.WAITING 3 :: l₂ ∧
        (∀ u ∈ l₁, (mkTicket "b" TicketStatus.WAITING 3).joinedAt < u.joinedAt)) :=
  ⟨(callNext_fifo ⟨[mkTicket "z" TicketStatus.COMPLETED 1], []⟩ 1 0).1 (by decide),
   (callNext_fifo stTie 1 0).2 (mkTicket "b" TicketStatus.WAITING 3) (by decide)⟩

/-! ## C9 — notification template rendering -/

/-- C9 counterexample: rendering the template
`"Hello {name}, counter {counter}"` for a customer literally named
`"{counter}"` at counter 3 yields `"Hello 3, counter {counter}"`: the
`{counter}` text injected by the name value is substituted (a recursive
substitution), while the template's own `{counter}` placeholder — a known
placeholder — is left verbatim in the output. -/
theorem render_recursive_substitution :
    renderWhatsAppMessage "Hello {name}, counter {counter}" "{counter}" "A001"
        "General Inquiry" 3 = "Hello 3, counter {counter}" ∧
    splitFirst "{counter}".toList "Hello 3, counter {counter}".toList ≠ none := by
  constructor
  · decide
  · decide

/-- When `pat` occurs nowhere, `splitFirst` reports no occurrence at any
position. -/
theorem splitFirst_none_no_occurrence (pat : List Char) :
    ∀ s, splitFirst pat s = none → ∀ i, pat.isPrefixOf (s.drop i) = false := by
  intro s
  induction s with
  | nil =>
    intro h i
    by_cases hp : pat = []
    · rw [splitFirst, if_pos hp] at h
      cases h
    · rcases pat with _ | ⟨p, ps⟩
      · exact absurd rfl hp
      · simp [List.isPrefixOf]
  | cons c cs ih =>
    intro h i
    cases hb : pat.isPrefixOf (c :: cs) with
    | true =>
      rw [splitFirst, if_pos hb] at h
      cases h
    | false =>
      rcases hcs : splitFirst pat cs with _ | ⟨a, b⟩
      · cases i with
        | zero => exact hb
        | succ j =>
          rw [List.drop_succ_cons]
          exact ih hcs j
      · rw [splitFirst, if_neg (by simp [hb]), hcs] at h
        cases h

/-- `splitFirst pat s = some (a, b)` decomposes `s` around the occurrence
and that occurrence is the first: `pat` is not a prefix of any strictly
earlier suffix of `s`. -/
theorem splitFirst_some_split (pat : List Char) :
    ∀ s a b, splitFirst pat s = some (a, b) →
      s = a ++ pat ++ b ∧ ∀ i, i < a.length → pat.isPrefixOf (s.drop i) = false := by
  intro s
  induction s with
  | nil =>
    intro a b h
    by_cases hp : pat = []
    · rw [splitFirst, if_pos hp] at h
      injection h with h1
      injection h1 with ha hb
      subst hp
      subst ha
      subst hb
      exact ⟨rfl, by intro i hi; cases hi⟩
    · rw [splitFirst, if_neg hp] at h
      cases h
  | cons c cs ih =>
    intro a b h
    cases hpre : pat.isPrefixOf (c :: cs) with
    | true =>
      rw [splitFirst, if_pos hpre] at h
      injection h with h1
      injection h1 with ha hb
      obtain ⟨tl, htl⟩ := List.isPrefixOf_iff_prefix.mp hpre
      have hdrop : (c :: cs).drop pat.length = tl := by
        rw [← htl, List.drop_left]
      refine ⟨?_, ?_⟩
      · rw [← ha, ← hb, hdrop, List.nil_append, htl]
      · intro i hi
        rw [← ha] at hi
        cases hi
    | false =>
      rcases hcs : splitFirst pat cs with _ | ⟨a', b'⟩
      · rw [splitFirst, if_neg (by simp [hpre]), hcs] at h
        cases h
      · rw [splitFirst, if_neg (by simp [hpre]), hcs] at h
        injection h with h1
        injection h1 with ha hb
        obtain ⟨hsplit, hfirst⟩ := ih a' b' hcs
        refine ⟨?_, ?_⟩
        · rw [← ha, ← hb, List.cons_append, List.cons_append, ← hsplit]
        · intro i hi
          cases i with
          | zero => exact hpre
          | succ j =>
            rw [List.drop_succ_cons]
            apply hfirst
            rw [← ha] at hi
            simpa using Nat.lt_of_succ_lt_succ hi

/-- C9 amended: rendering applies four first-occurrence replacements in the
fixed order `{name}`, `{number}`, `{service}`, `{counter}`.  Each step
replaces exactly the first occurrence, if any, of its placeholder in the
current string with the value; a placeholder with no occurrence — in
particular every unknown placeholder — leaves that step's string
untouched; occurrences after the first survive, and because the steps are
sequential, placeholder text contained in an earlier-substituted value is
subject to the later replacements. -/
theorem render_first_occurrence (tmpl n num svc : String) (cid : Nat) :
    renderWhatsAppMessage tmpl n num svc cid =
      jsReplace (jsReplace (jsReplace (jsReplace tmpl "{name}" n) "{number}" num)
        "{service}" svc) "{counter}" (toString cid) ∧
    ∀ (s pat r : List Char),
      (splitFirst pat s = none → replaceFirst s pat r = s) ∧
      (splitFirst pat s = none → ∀ i, pat.isPrefixOf (s.drop i) = false) ∧
      (∀ a b, splitFirst pat s = some (a, b) →
        s = a ++ pat ++ b ∧ replaceFirst s pat r = a ++ r ++ b ∧
        ∀ i, i < a.length → pat.isPrefixOf (s.drop i) = false) := by
  refine ⟨rfl, ?_⟩
  intro s pat r
  refine ⟨?_, splitFirst_none_no_occurrence pat s, ?_⟩
  · intro h
    rw [replaceFirst, h]
  · intro a b h
    obtain ⟨hsplit, hfirst⟩ := splitFirst_some_split pat s a b h
    exact ⟨hsplit, by rw [replaceFirst, h], hfirst⟩

/-- C9 amended witness: a string without the placeholder is unchanged, and
`"a{name}b"` splits around its single `{name}` occurrence, which the
replacement step rewrites to the value. -/
theorem render_first_occurrence_witness :
    replaceFirst "ab".toList "{name}".toList "X".toList = "ab".toList ∧
    "a{name}b".toList = "a".toList ++ "{name}".toList ++ "b".toList ∧
    replaceFirst "a{name}b".toList "{name}".toList "X".toList =
      "a".toList ++ "X".toList ++ "b".toList := by
  have h := (render_first_occurrence "t" "n" "u" "s" 0).2
  refine ⟨(h "ab".toList "{name}".toList "X".toList).1 (by decide), ?_, ?_⟩
  · exact ((h "a{name}b".toList "{name}".toList "X".toList).2.2 "a".toList
      "b".toList (by decide)).1
  · exact ((h "a{name}b".toList "{name}".toList "X".toList).2.2 "a".toList
      "b".toList (by decide)).2.1

/-! ## C5 — counter/ticket cross-reference invariant -/

/-- Under the id primary key, at most one row can match the conditional
update's id+status filter. -/
theorem filter_id_length_le_one (l : List Ticket) (x : String)
    (hn : (l.map (fun t => t.id)).Nodup) :
    (l.filter (fun t =>
      decide (t.id = x ∧ t.status = TicketStatus.WAITING))).length ≤ 1 := by
  induction l with
  | nil => simp
  | cons t ts ih =>
    rw [List.map_cons, List.nodup_cons] at hn
    by_cases hp : (t.id = x ∧ t.status = TicketStatus.WAITING)
    · rw [List.filter_cons_of_pos (by simpa using hp)]
      have hrest : ts.filter (fun t =>
          decide (t.id = x ∧ t.status = TicketStatus.WAITING)) = [] := by
        rw [List.filter_eq_nil_iff]
        intro u hu hcon
        rw [decide_eq_true_eq] at hcon
        apply hn.1
        have : u.id = t.id := by rw [hcon.1, hp.1]
        rw [← this]
        exact List.mem_map_of_mem (fun t => t.id) hu
      rw [hrest]
      simp
    · rw [List.filter_cons_of_neg (by simpa using hp)]
      exact ih hn.2

/-- With distinct ticket ids, the optimistic WAITING→SERVING update
preserves the counter/ticket invariant, whether it succeeds or fails
stale. -/
theorem stateInv_transition (st : AppState) (x : String) (cid now : Nat)
    (hids : (st.tickets.map (fun t => t.id)).Nodup) (hinv : StateInv st) :
    StateInv (transitionToServing st x cid now).1 := by
  by_cases hm : (st.tickets.filter (fun t =>
      decide (t.id = x ∧ t.status = TicketStatus.WAITING))).length = 1
  · obtain ⟨t₀, hfil⟩ := List.length_eq_one.mp hm
    have ht₀fil : t₀ ∈ st.tickets.filter (fun t =>
        decide (t.id = x ∧ t.status = TicketStatus.WAITING)) := by
      rw [hfil]
      exact List.mem_cons_self t₀ []
    have ht₀mem : t₀ ∈ st.tickets := List.mem_of_mem_filter ht₀fil
    have hpt₀ : t₀.id = x ∧ t₀.status = TicketStatus.WAITING := by
      have := (List.mem_filter.mp ht₀fil).2
      simpa using this
    have hK1 : ∀ c' ∈ st.counters, c'.currentTicketId ≠ some x := by
      intro c' hc' hcon
      obtain ⟨t', ht'mem, ht'id, ht'serv, _⟩ := hinv.1 c' hc' x hcon
      have : t' = t₀ :=
        List.inj_on_of_nodup_map hids ht'mem ht₀mem (by rw [ht'id, hpt₀.1])
      rw [this, hpt₀.2] at ht'serv
      cases ht'serv
    have hfst : (transitionToServing st x cid now).1 =
        ⟨st.tickets.map (fun t =>
          if t.id = x ∧ t.status = TicketStatus.WAITING then
            { t with status := TicketStatus.SERVING, counter := some cid, servedAt := some now }
          else t),
         st.counters.map (fun c =>
          if c.id = cid then { c with currentTicketId := some x } else c)⟩ := by
      simp only [transitionToServing, if_pos hm]
    rw [hfst]
    constructor
    · intro cn hcn tid hcur
      obtain ⟨c, hc, hgc⟩ := List.mem_map.mp hcn
      by_cases h1 : c.id = cid
      · rw [if_pos h1] at hgc
        have htid : tid = x := by
          rw [← hgc] at hcur
          exact (Option.some.inj hcur).symm
        refine ⟨{ t₀ with status := TicketStatus.SERVING, counter := some cid, servedAt := some now }, ?_, ?_, rfl, ?_⟩
        · have heq : (if t₀.id = x ∧ t₀.status = TicketStatus.WAITING then
              { t₀ with status := TicketStatus.SERVING, counter := some cid, servedAt := some now }
            else t₀) =
              { t₀ with status := TicketStatus.SERVING, counter := some cid, servedAt := some now } :=
            if_pos hpt₀
          rw [← heq]
          exact List.mem_map_of_mem _ ht₀mem
        · show t₀.id = tid
          rw [htid, hpt₀.1]
        · show some cid = some cn.id
          rw [← hgc]
          show some cid = some c.id
          rw [h1]
      · rw [if_neg h1] at hgc
        rw [← hgc] at hcur
        obtain ⟨t, htmem, htid, htserv, htctr⟩ := hinv.1 c hc tid hcur
        refine ⟨t, ?_, htid, htserv, ?_⟩
        · have heq : (if t.id = x ∧ t.status = TicketStatus.WAITING then
              { t with status := TicketStatus.SERVING, counter := some cid, servedAt := some now }
            else t) = t := by
            apply if_neg
            intro hcon
            rw [hcon.2] at htserv
            cases htserv
          rw [← heq]
          exact List.mem_map_of_mem _ htmem
        · rw [← hgc]
          exact htctr
    · intro cn hcn cn' hcn' tid hcur hcur'
      obtain ⟨c, hc, hgc⟩ := List.mem_map.mp hcn
      obtain ⟨c', hc', hgc'⟩ := List.mem_map.mp hcn'
      by_cases h1 : c.id = cid <;> by_cases h2 : c'.id = cid
      · rw [if_pos h1] at hgc
        rw [if_pos h2] at hgc'
        rw [← hgc, ← hgc']
        show c.id = c'.id
        rw [h1, h2]
      · rw [if_pos h1] at hgc
        rw [if_neg h2] at hgc'
        rw [← hgc] at hcur
        have htid : tid = x := (Option.some.inj hcur).symm
        rw [← hgc', htid] at hcur'
        exact absurd hcur' (hK1 c' hc')
      · rw [if_neg h1] at hgc
        rw [if_pos h2] at hgc'
        rw [← hgc'] at hcur'
        have htid : tid = x := (Option.some.inj hcur').symm
        rw [← hgc, htid] at hcur
        exact absurd hcur (hK1 c hc)
      · rw [if_neg h1] at hgc
        rw [if_neg h2] at hgc'
        rw [← hgc, ← hgc']
        exact hinv.2 c hc c' hc' tid (by rw [hgc]; exact hcur)
          (by rw [hgc']; exact hcur')
  · have hle := filter_id_length_le_one st.tickets x hids
    have hzero : (st.tickets.filter (fun t =>
        decide (t.id = x ∧ t.status = TicketStatus.WAITING))).length = 0 := by
      omega
    have hnil := List.length_eq_zero.mp hzero
    rw [transition_no_match st x cid now hnil]
    exact hinv

/-- The terminal-status update (and the counter release it performs)
preserves the counter/ticket invariant. -/
theorem stateInv_updateStatus (st : AppState) (tid : String)
    (s : TicketStatus) (now : Nat) (hinv : StateInv st) :
    StateInv (handleUpdateTicketStatus st tid s now) := by
  rcases hf : st.counters.find? (fun c => decide (c.currentTicketId = some tid))
    with _ | c0
  · have hfst : handleUpdateTicketStatus st tid s now =
        ⟨st.tickets.map (fun t =>
          if t.id = tid then
            { t with status := s, completedAt := if s = TicketStatus.COMPLETED then some now else t.completedAt }
          else t),
         st.counters⟩ := by
      simp only [handleUpdateTicketStatus, hf]
    have hnone : ∀ c ∈ st.counters, c.currentTicketId ≠ some tid := by
      intro c hc hcon
      have := List.find?_eq_none.mp hf c hc
      simp [hcon] at this
    rw [hfst]
    constructor
    · intro c hc tid' hcur
      obtain ⟨t, htmem, htid, htserv, htctr⟩ := hinv.1 c hc tid' hcur
      refine ⟨t, ?_, htid, htserv, htctr⟩
      have heq : (if t.id = tid then
          { t with status := s, completedAt := if s = TicketStatus.COMPLETED then some now else t.completedAt }
        else t) = t := by
        apply if_neg
        intro hcon
        apply hnone c hc
        rw [← hcon, htid]
        exact hcur
      rw [← heq]
      exact List.mem_map_of_mem _ htmem
    · intro c hc c' hc' tid' hcur hcur'
      exact hinv.2 c hc c' hc' tid' hcur hcur'
  · have hc0mem : c0 ∈ st.counters := List.mem_of_find?_eq_some hf
    have hc0cur : c0.currentTicketId = some tid := by
      have := List.find?_some hf
      simpa using this
    have hfst : handleUpdateTicketStatus st tid s now =
        ⟨st.tickets.map (fun t =>
          if t.id = tid then
            { t with status := s, completedAt := if s = TicketStatus.COMPLETED then some now else t.completedAt }
          else t),
         st.counters.map (fun c' =>
          if c'.id = c0.id then { c' with currentTicketId := none } else c')⟩ := by
      simp only [handleUpdateTicketStatus, hf]
    rw [hfst]
    constructor
    · intro cn hcn tid' hcur
      obtain ⟨c, hc, hgc⟩ := List.mem_map.mp hcn
      by_cases h1 : c.id = c0.id
      · rw [if_pos h1] at hgc
        rw [← hgc] at hcur
        cases hcur
      · rw [if_neg h1] at hgc
        rw [← hgc] at hcur
        have htid' : tid' ≠ tid := by
          intro hcon
          apply h1
          exact hinv.2 c hc c0 hc0mem tid (by rw [← hcon]; exact hcur) hc0cur
        obtain ⟨t, htmem, htid, htserv, htctr⟩ := hinv.1 c hc tid' hcur
        refine ⟨t, ?_, htid, htserv, ?_⟩
        · have heq : (if t.id = tid then
              { t with status := s, completedAt := if s = TicketStatus.COMPLETED then some now else t.completedAt }
            else t) = t := by
            apply if_neg
            rw [htid]
            exact htid'
          rw [← heq]
          exact List.mem_map_of_mem _ htmem
        · rw [← hgc]
          exact htctr
    · intro cn hcn cn' hcn' tid' hcur hcur'
      obtain ⟨c, hc, hgc⟩ := List.mem_map.mp hcn
      obtain ⟨c', hc', hgc'⟩ := List.mem_map.mp hcn'
      by_cases h1 : c.id = c0.id
      · rw [if_pos h1] at hgc
        rw [← hgc] at hcur
        cases hcur
      · by_cases h2 : c'.id = c0.id
        · rw [if_pos h2] at hgc'
          rw [← hgc'] at hcur'
          cases hcur'
        · rw [if_neg h1] at hgc
          rw [if_neg h2] at hgc'
          rw [← hgc, ← hgc']
          exact hinv.2 c hc c' hc' tid' (by rw [hgc]; exact hcur)
            (by rw [hgc']; exact hcur')

/-- C5: the invariant — a non-null `currentTicketId` references a SERVING
ticket whose `counterId` is this counter, and no two distinct counters
hold the same current ticket — is preserved by `handleCallNext` (through
its optimistic conditional update, in both the success and the stale
outcome) and by `handleUpdateTicketStatus` with any requested status,
given the tickets table's distinct ids. -/
theorem callNext_updateStatus_preserve_inv (st : AppState) (cid : Nat)
    (tid : String) (s : TicketStatus) (n1 n2 : Nat)
    (hids : (st.tickets.map (fun t => t.id)).Nodup) (hinv : StateInv st) :
    StateInv (handleCallNext st cid n1).1 ∧
    StateInv (handleUpdateTicketStatus st tid s n2) := by
  refine ⟨?_, stateInv_updateStatus st tid s n2 hinv⟩
  rcases hsel : selectOldestWaiting st.tickets with _ | nt
  · simp only [handleCallNext, hsel]
    exact hinv
  · have hA := stateInv_transition st nt.id cid n1 hids hinv
    rcases htr : transitionToServing st nt.id cid n1 with ⟨st', r⟩
    rw [htr] at hA
    cases r
    · simp only [handleCallNext, hsel, htr]
      exact hA
    · simp only [handleCallNext, hsel, htr]
      exact hA

/-- A one-WAITING-ticket, one-idle-counter state. -/
def stBase : AppState :=
  ⟨[mkTicket "x" TicketStatus.WAITING 5], [⟨1, true, none, none⟩]⟩

/-- C5 witness: the invariant holds on `stBase` and is preserved there both
by a call-next and by a terminal-status update. -/
theorem callNext_updateStatus_preserve_inv_witness :
    StateInv (handleCallNext stBase 1 50).1 ∧
    StateInv (handleUpdateTicketStatus stBase "x" TicketStatus.COMPLETED 99) := by
  have hinv : StateInv stBase := by
    constructor
    · intro c hc tid hcur
      rcases List.mem_singleton.mp hc with rfl
      cases hcur
    · intro c hc c' hc' tid hcur hcur'
      rcases List.mem_singleton.mp hc with rfl
      cases hcur
  exact callNext_updateStatus_preserve_inv stBase 1 "x" TicketStatus.COMPLETED
    50 99 (by decide) hinv
